import Mathlib

/-!
Shallow embedding of the core pipeline of the Python Docstring Generator
(`src/core/parser.py`, `src/core/generator.py`, `src/core/validator.py`,
`src/utils/helpers.py`), together with theorems settling the specification
claims about it.

Python strings are modelled as Lean `String`s; the Python string operations
used by the code (`split`, `replace`, `strip`, `startswith`, `endswith`,
`in`, `count`, slicing) are given explicit executable definitions below with
the same semantics.  Python `dict`s (insertion ordered, later assignment to
an existing key overwrites in place) are modelled as association lists with
an upsert operation.  `None`-able values are modelled with `Option`; a dict
that may or may not carry a key models that key as an `Option` field, `none`
meaning the key is absent.  The two external collaborators are parameters:
the remote generation call is a function `String → Except String String`
(`.error` models a raised exception), and the pydocstyle rule engine is a
function `String → List Issue`.
-/

namespace DocGen

/-- Python whitespace characters recognised by `str.strip` / `str.lstrip`
(ASCII range, as exercised by this program). -/
def pyWS (c : Char) : Bool :=
  c = ' ' || c = '\t' || c = '\n' || c = '\r' || c = '\x0b' || c = '\x0c'

/-- Python `str.strip()` on the underlying character list. -/
def pyStripList (l : List Char) : List Char :=
  ((l.dropWhile pyWS).reverse.dropWhile pyWS).reverse

/-- Python `s.strip()`. -/
def pyStrip (s : String) : String :=
  String.mk (pyStripList s.data)

/-- Number of leading whitespace characters: `len(line) - len(line.lstrip())`. -/
def leadingWS (s : String) : Nat :=
  (s.data.takeWhile pyWS).length

/-- Python `s.startswith(p)`. -/
def pyStartsWith (s p : String) : Bool :=
  p.data.isPrefixOf s.data

/-- Python `s.endswith(p)`. -/
def pyEndsWith (s p : String) : Bool :=
  p.data.isSuffixOf s.data

/-- Python `s[n:]` for a nonnegative `n`. -/
def pyDropLeft (s : String) (n : Nat) : String :=
  String.mk (s.data.drop n)

/-- Python `s[:-n]` for `0 < n ≤ len(s)`. -/
def pyDropRight (s : String) (n : Nat) : String :=
  String.mk (s.data.take (s.data.length - n))

/-- Splitting a character list on every non-overlapping occurrence of a
non-empty separator, leftmost first — the semantics of Python `s.split(sep)`.
The `fuel` argument makes the recursion structural; it is instantiated with
the length of the list, which suffices because each step consumes at least
one character. -/
def splitAux (sep : List Char) : Nat → List Char → List (List Char)
  | _, [] => [[]]
  | 0, l => [l]
  | fuel + 1, c :: cs =>
    if sep ≠ [] ∧ sep.isPrefixOf (c :: cs) then
      [] :: splitAux sep fuel (List.drop sep.length (c :: cs))
    else
      match splitAux sep fuel cs with
      | [] => [[c]]
      | h :: t => (c :: h) :: t

/-- Python `s.split(sep)` for a non-empty separator (the program never splits
on the empty string, which Python rejects). -/
def pySplit (s sep : String) : List String :=
  (splitAux sep.data s.data.length s.data).map String.mk

/-- Python `s.replace(old, new)`: for non-empty `old` it rewrites every
non-overlapping occurrence, which is `new.join(s.split(old))`. -/
def pyReplace (s old new : String) : String :=
  if old.data = [] then s
  else String.mk (List.intercalate new.data (splitAux old.data s.data.length s.data))

/-- Python `s.count(sub)`: number of non-overlapping occurrences, which is
`len(s.split(sub)) - 1`. -/
def pyCount (s sub : String) : Nat :=
  (splitAux sub.data s.data.length s.data).length - 1

/-- Python `sub in s` (substring containment): the empty string is contained
in every string, and a non-empty `sub` occurs iff splitting on it produces
more than one chunk. -/
def pyContains (s sub : String) : Bool :=
  sub.data = [] || pyCount s sub ≠ 0

/-- Python `'\n'.split`-style line splitting: `s.split('\n')`. -/
def pySplitLines (s : String) : List String :=
  (s.data.splitOn '\n').map String.mk

/-- Python `'\n'.join(lines)`. -/
def pyJoinLines (ls : List String) : String :=
  String.mk (List.intercalate ['\n'] (ls.map String.data))

/-- Joining with newlines undoes `split('\n')`. -/
theorem pyJoinLines_pySplitLines (s : String) : pyJoinLines (pySplitLines s) = s := by
  unfold pyJoinLines pySplitLines
  rw [List.map_map]
  have : (String.data ∘ String.mk) = id := rfl
  rw [this, List.map_id, List.intercalate_splitOn]

/-- Python truthiness of an optional string: `None` and `""` are falsy. -/
def pyTruthy : Option String → Bool
  | none => false
  | some s => s ≠ ""

/-- Rendering of an optional string inside a Python f-string: `None` prints
as the text `None`. -/
def pyShowOpt : Option String → String
  | none => "None"
  | some s => s

/-- One formal argument of a parsed function: `{"name": ..., "type": ...}`
from `CodeParser._get_function_info`; `type` is `None` when the parameter
has no syntactic annotation. -/
structure Arg where
  name : String
  type : Option String
  deriving DecidableEq, Repr

/-- Record `FunctionInfo` from `src/core/parser.py`: metadata of one parsed
function. -/
structure FunctionInfo where
  name : String
  args : List Arg
  returns : Option String
  lineno : Nat
  existing_docstring : Option String
  body : String
  deriving DecidableEq, Repr

/-- The result dict built by `DocstringGenerator.generate_docstring` /
`_parse_response`.  The `docstring` key is modelled as an `Option` so that
"the key is absent or `None`" is representable (`none`); the code in fact
always stores a string there, which is what claim C7 asserts.  `status` is
`none` when the dict carries no `"status"` key. -/
structure GenResult where
  docstring : Option String
  fixed_code : Option String
  errors : List String
  status : Option String
  deriving DecidableEq, Repr

/-- Method `DocstringGenerator._create_prompt`: the f-string of
`src/core/generator.py` lines 65–100, rendered with Lean string
concatenation.  Python renders a `None` annotation as the text `None`. -/
def create_prompt (function_info : FunctionInfo) (style : String) : String :=
  let args_str := String.intercalate ", "
    (function_info.args.map (fun arg => arg.name ++ ": " ++ pyShowOpt arg.type))
  "Generate a " ++ style ++ " style docstring for this Python function.\n\n" ++
  "Function Name: " ++ function_info.name ++ "\n" ++
  "Arguments: " ++ args_str ++ "\n" ++
  "Return Type: " ++ pyShowOpt function_info.returns ++ "\n\n" ++
  "Function Code:\n" ++ function_info.body ++ "\n\n" ++
  "Requirements:\n" ++
  "1. Follow " ++ style ++ " style docstring format strictly\n" ++
  "2. Include purpose of the function\n" ++
  "3. Describe all parameters with their types\n" ++
  "4. Describe return type and value\n" ++
  "5. Add inline comments for complex logic if needed\n" ++
  "6. Follow PEP 257 conventions\n" ++
  "7. First line should be a brief summary ending with a period\n" ++
  "8. If multi-line, leave a blank line after the summary\n\n" ++
  "Also, if you find any obvious errors in the code (syntax, logic), provide a fixed version.\n\n" ++
  "Respond in this format:\nDOCSTRING:\n[Your generated docstring here]\n\n" ++
  "FIXED_CODE:\n[Fixed code if any errors found, otherwise write \"No fixes needed\"]\n\n" ++
  "ERRORS_FOUND:\n[List any errors you found, otherwise write \"None\"]\n"

/-- Three single quotes, the alternative Python docstring delimiter. -/
def tripleSingleQuote : String :=
  String.mk ['\x27', '\x27', '\x27']

/-- Method `DocstringGenerator._clean_docstring`: strips markdown fences, then one
layer of leading/trailing triple quotes, then surrounding whitespace. -/
def clean_docstring (d0 : String) : String :=
  let d := pyReplace d0 "```python" ""
  let d := pyReplace d "```" ""
  let d := pyStrip d
  let d := if pyStartsWith d "\"\"\"" then pyDropLeft d 3 else d
  let d := if pyEndsWith d "\"\"\"" then pyDropRight d 3 else d
  let d := if pyStartsWith d tripleSingleQuote then pyDropLeft d 3 else d
  let d := if pyEndsWith d tripleSingleQuote then pyDropRight d 3 else d
  pyStrip d

/-- Method `DocstringGenerator._parse_response`: splits the completion on the fixed
section markers, falling back to treating the whole response as the
docstring.  Every operation it performs is total, so the `except` branch of
the Python `try` is unreachable and the function never raises; the embedding
is therefore a plain total function. -/
def parse_response (response_text : String) : GenResult :=
  let sections := pySplit response_text "FIXED_CODE:"
  if sections.length ≥ 2 then
    let docstring_part := pyStrip (pyReplace (sections.getD 0 "") "DOCSTRING:" "")
    let remaining := sections.getD 1 ""
    let errors_split := pySplit remaining "ERRORS_FOUND:"
    if errors_split.length ≥ 2 then
      let fixed_code := pyStrip (errors_split.getD 0 "")
      let errors_found := pyStrip (errors_split.getD 1 "")
      { docstring := some (clean_docstring docstring_part)
        fixed_code := if fixed_code ≠ "" ∧ ¬ pyContains fixed_code "No fixes needed"
          then some fixed_code else none
        errors := if errors_found ≠ "" ∧ ¬ pyContains errors_found "None"
          then [errors_found] else []
        status := none }
    else
      { docstring := some (clean_docstring docstring_part)
        fixed_code := none, errors := [], status := none }
  else
    { docstring := some (clean_docstring (pyStrip response_text))
      fixed_code := none, errors := [], status := none }

/-- Method `DocstringGenerator.generate_docstring`.  Here `hasModel` is the truth of
`self.model` (set iff a credential was configured in `__init__`); `svc` is
the external `model.generate_content` / `response.text` step, with `.error`
modelling a raised exception.  The second component of the result lists the
prompts actually sent to the service (the network calls issued). -/
def generate_docstring (hasModel : Bool) (svc : String → Except String String)
    (function_info : FunctionInfo) (style : String) : GenResult × List String :=
  if ¬ hasModel then
    ({ docstring := some "Error: No API key configured"
       fixed_code := none
       errors := ["API key not set"]
       status := none }, [])
  else if pyTruthy function_info.existing_docstring then
    ({ docstring := function_info.existing_docstring
       fixed_code := none
       errors := []
       status := some "existing" }, [])
  else
    let prompt := create_prompt function_info style
    match svc prompt with
    | .ok text =>
      ({ parse_response text with status := some "generated" }, [prompt])
    | .error e =>
      ({ docstring := some ("Error generating docstring: " ++ e)
         fixed_code := none
         errors := [e]
         status := some "error" }, [prompt])

/-- Python `d[k] = v` on an insertion-ordered dict: update in place when the
key is present, else append at the end. -/
def dictInsert {α : Type} (m : List (String × α)) (k : String) (v : α) :
    List (String × α) :=
  if m.any (fun p => p.1 = k) then
    m.map (fun p => if p.1 = k then (k, v) else p)
  else
    m ++ [(k, v)]

/-- Python `k in d` / `d[k]` lookup (first entry wins; keys are unique in
dicts built by `dictInsert` from `[]`). -/
def dictFind {α : Type} (m : List (String × α)) (k : String) : Option α :=
  (m.find? (fun p => p.1 = k)).map (fun p => p.2)

/-- The loop body chain of `DocstringGenerator.generate_batch`, over the
enumerated function list: accumulates the result dict and records the
`progress_callback(i + 1, total)` invocations in order. -/
def batchAux (hasModel : Bool) (svc : String → Except String String)
    (style : String) (total : Nat) :
    List (Nat × FunctionInfo) → List (String × GenResult) →
    List (String × GenResult) × List (Nat × Nat)
  | [], results => (results, [])
  | (i, func) :: rest, results =>
    let r := (generate_docstring hasModel svc func style).1
    let step := batchAux hasModel svc style total rest (dictInsert results func.name r)
    (step.1, (i + 1, total) :: step.2)

/-- Method `DocstringGenerator.generate_batch`: sequential fold over the input
functions in order; first component is the result dict keyed by function
name, second the trace of progress-callback invocations. -/
def generate_batch (hasModel : Bool) (svc : String → Except String String)
    (functions : List FunctionInfo) (style : String) :
    List (String × GenResult) × List (Nat × Nat) :=
  batchAux hasModel svc style functions.length functions.enum []

/-- One pydocstyle finding as dict-ified by `DocstringValidator.validate_code`
(`{"code", "message", "line", "definition"}`). -/
structure Issue where
  code : String
  message : String
  line : Nat
  defining : String
  deriving DecidableEq, Repr

/-- The `summary` sub-dict of a validation result.  `compliant` is an
integer because the Python code computes it as `max(0, ...)` over ints. -/
structure Summary where
  compliant : Int
  warnings : Nat
  errors : Nat
  deriving DecidableEq, Repr

/-- The dict returned by `DocstringValidator.validate_code`. -/
structure VResult where
  errors : List Issue
  warnings : List Issue
  compliant : Int
  total_issues : Nat
  summary : Summary
  deriving DecidableEq, Repr

/-- The rule codes `validate_code` and `get_file_status` treat as
error-severity: `['D100', 'D101', 'D102', 'D103']`. -/
def errorCodes : List String :=
  ["D100", "D101", "D102", "D103"]

/-- The severity `DocstringValidator.get_file_status` attaches to a rule
code: `"error" if code in ['D100', 'D101', 'D102', 'D103'] else "warning"`,
the same membership test `validate_code` uses to partition findings. -/
def fileStatusSeverity (code : String) : String :=
  if code ∈ errorCodes then "error" else "warning"

/-- Function `get_severity_color` from `src/utils/helpers.py`. -/
def get_severity_color (code : String) : String :=
  if pyStartsWith code "D1" then "error"
  else if pyStartsWith code "D2" then "warning"
  else if pyStartsWith code "D3" then "warning"
  else if pyStartsWith code "D4" then "error"
  else "error"

/-- Three double quotes, the docstring delimiter `_insert_docstrings`
emits. -/
def tripleDoubleQuote : String := "\"\"\""

/-- Expression `line.split('def ')[1].split('(')[0].strip()`: the function name
`_insert_docstrings` extracts from a definition line.  The index-1 access is
guarded in the code by `line.strip().startswith('def ')`, which guarantees
the split has at least two parts; out-of-range indexing is modelled by a
default that the guard makes unreachable. -/
def extractFuncName (line : String) : String :=
  pyStrip ((pySplit ((pySplit line "def ").getD 1 "") "(").getD 0 "")

/-- The docstring text `_insert_docstrings` would splice for a line:
`docstrings[func_name].get('docstring', '')`, empty when the name is not a
key of the mapping. -/
def docValueFor (docstrings : List (String × GenResult)) (line : String) : String :=
  match dictFind docstrings (extractFuncName line) with
  | some r => r.docstring.getD ""
  | none => ""

/-- The condition under which `_insert_docstrings` inserts a block after a
line: the stripped line starts with `def `, the extracted name is a key of
the mapping, and the looked-up docstring text is non-empty. -/
def insertTrigger (docstrings : List (String × GenResult)) (line : String) : Bool :=
  pyStartsWith (pyStrip line) "def " &&
  (dictFind docstrings (extractFuncName line)).isSome &&
  docValueFor docstrings line ≠ ""

/-- The block of lines `_insert_docstrings` appends after a triggering
definition line: an opening `\"\"\"` line, the docstring lines, and a
closing `\"\"\"` line, all indented four spaces past the definition's
indentation. -/
def docBlock (line : String) (docstring : String) : List String :=
  let indent_str := String.mk (List.replicate (leadingWS line + 4) ' ')
  (indent_str ++ tripleDoubleQuote) ::
    (pySplitLines docstring).map (fun doc_line => indent_str ++ doc_line) ++
    [indent_str ++ tripleDoubleQuote]

/-- The line loop of `DocstringValidator._insert_docstrings`: every input
line is appended verbatim, followed by a docstring block when the line
triggers. -/
def insertLines (docstrings : List (String × GenResult)) :
    List String → List String
  | [] => []
  | line :: rest =>
    if insertTrigger docstrings line then
      line :: (docBlock line (docValueFor docstrings line) ++
        insertLines docstrings rest)
    else
      line :: insertLines docstrings rest

/-- Method `DocstringValidator._insert_docstrings`: split into lines, run the
insertion loop, re-join with newlines. -/
def insert_docstrings (source_code : String)
    (docstrings : List (String × GenResult)) : String :=
  pyJoinLines (insertLines docstrings (pySplitLines source_code))

/-- The merged-source view `validate_code` validates: generated docstrings
are spliced in when the mapping is truthy (present and non-empty). -/
def mergedSource (source_code : String)
    (generated_docstrings : Option (List (String × GenResult))) : String :=
  match generated_docstrings with
  | some ds => if ds ≠ [] then insert_docstrings source_code ds else source_code
  | none => source_code

/-- Method `DocstringValidator._format_results`. -/
def format_results (errors warnings : List Issue) (compliant_count : Int) :
    VResult :=
  { errors := errors
    warnings := warnings
    compliant := compliant_count
    total_issues := errors.length + warnings.length
    summary :=
      { compliant := compliant_count
        warnings := warnings.length
        errors := errors.length } }

/-- The success path of `DocstringValidator.validate_code`; `check` is the
external pydocstyle rule engine run on the merged source (written to a
temporary file in the Python code). -/
def validate_code (check : String → List Issue) (source_code : String)
    (generated_docstrings : Option (List (String × GenResult))) : VResult :=
  let merged := mergedSource source_code generated_docstrings
  let issues := check merged
  let errors := issues.filter (fun issue => issue.code ∈ errorCodes)
  let warnings := issues.filter (fun issue => issue.code ∉ errorCodes)
  let total_functions := pyCount merged "def "
  let compliant_count : Int := max 0 ((total_functions : Int) - errors.length)
  format_results errors warnings compliant_count

/-- The `except` branch of `validate_code`: the fixed synthetic result
returned when anything inside raises. -/
def validate_error_result (e : String) : VResult :=
  { errors := [{ code := "ERROR", message := "Validation error: " ++ e,
                 line := 0, defining := "" }]
    warnings := []
    compliant := 0
    total_issues := 1
    summary := { compliant := 0, warnings := 0, errors := 1 } }

/-- A Python syntax-tree node as far as `CodeParser._extract_functions`
observes it: either a `FunctionDef` node (carrying the child nodes that
`ast.iter_child_nodes` yields, which include its body statements) or any
other node kind with its children (`Module`, `ClassDef`, assignments, and
so on). -/
inductive PyNode where
  | funcDef (name : String) (children : List PyNode)
  | other (children : List PyNode)

/-- The children `ast.iter_child_nodes` yields for a node. -/
def PyNode.children : PyNode → List PyNode
  | .funcDef _ cs => cs
  | .other cs => cs

/-- The name carried by a `FunctionDef` node, `none` otherwise. -/
def PyNode.funcName : PyNode → Option String
  | .funcDef n _ => some n
  | .other _ => none

mutual

/-- Node count of a tree, used as the termination measure of the
traversals. -/
def nodeSize : PyNode → Nat
  | .funcDef _ cs => 1 + nodeSizeL cs
  | .other cs => 1 + nodeSizeL cs

/-- Node count of a forest. -/
def nodeSizeL : List PyNode → Nat
  | [] => 0
  | n :: ns => nodeSize n + nodeSizeL ns

end

theorem nodeSizeL_append (a b : List PyNode) :
    nodeSizeL (a ++ b) = nodeSizeL a + nodeSizeL b := by
  induction a with
  | nil => simp [nodeSizeL]
  | cons n ns ih => simp [nodeSizeL, ih]; ring

theorem nodeSizeL_children_lt (n : PyNode) : nodeSizeL n.children < nodeSize n := by
  cases n <;> simp [PyNode.children, nodeSize]

/-- CPython's `ast.walk`: a breadth-first traversal.  Its implementation
keeps a `deque` seeded with the root, repeatedly pops the front node,
appends that node's children (`ast.iter_child_nodes`) at the back, and
yields the popped node — so all nodes at one depth are yielded before any
node at the next depth. -/
def walkBFS : List PyNode → List PyNode
  | [] => []
  | n :: rest => n :: walkBFS (rest ++ n.children)
  termination_by q => nodeSizeL q
  decreasing_by
    simp only [nodeSizeL, nodeSizeL_append]
    have := nodeSizeL_children_lt n
    omega

/-- Depth-first pre-order traversal: the order in which definitions appear
in the source document. -/
def walkDoc : List PyNode → List PyNode
  | [] => []
  | n :: rest => n :: walkDoc (n.children ++ rest)
  termination_by q => nodeSizeL q
  decreasing_by
    simp only [nodeSizeL, nodeSizeL_append]
    have := nodeSizeL_children_lt n
    omega

/-- Method `CodeParser._extract_functions`: walk the tree with `ast.walk` and keep
one record per `FunctionDef` node, in walk order.  Only the extraction
order and multiplicity are modelled; the per-node metadata is
`_get_function_info`'s concern. -/
def extract_functions (tree : PyNode) : List String :=
  (walkBFS [tree]).filterMap PyNode.funcName

/-- The names of all function definitions in document order (depth-first
pre-order). -/
def docOrderNames (tree : PyNode) : List String :=
  (walkDoc [tree]).filterMap PyNode.funcName

/-- The undocumented unit of the spec's first scenario:
`def f(x):\n    return x`. -/
def sampleUnit : FunctionInfo :=
  { name := "f"
    args := [{ name := "x", type := none }]
    returns := none
    lineno := 1
    existing_docstring := none
    body := "def f(x):\n    return x" }

/-- A remote service that always fails. -/
def failingSvc : String → Except String String :=
  fun _ => .error "service unreachable"

/-- Claim C1: as stated — with no credential configured, the result of
generate_docstring carries status = error — the claim is false: the
no-credential branch builds its dict without a status key at all, so the
status field is absent rather than equal to error. -/
theorem c1_counterexample :
    (generate_docstring false failingSvc sampleUnit "Google").1.status = none ∧
    (generate_docstring false failingSvc sampleUnit "Google").1.status ≠ some "error" := by
  constructor <;> simp [generate_docstring]

/-- Claim C1 (amended): for every unit, service and style, if no credential
is configured then generate_docstring returns immediately the fixed
result — docstring "Error: No API key configured", errors ["API key not
set"], no fixed code, and no status key — and issues no network call. -/
theorem c1_no_credential_fixed_result (svc : String → Except String String)
    (function_info : FunctionInfo) (style : String) :
    generate_docstring false svc function_info style =
      ({ docstring := some "Error: No API key configured"
         fixed_code := none
         errors := ["API key not set"]
         status := none }, []) := by
  simp [generate_docstring]

/-- Claim C2: as stated — status = error if and only if the remote call
failed or no credential was configured — the claim is false: with no
credential configured (and, here, a failing service) the result's status
field is absent, not error. -/
theorem c2_counterexample :
    (generate_docstring false failingSvc sampleUnit "NumPy").1.status ≠ some "error" ∧
    (generate_docstring false failingSvc sampleUnit "NumPy").1.status = none := by
  constructor <;> simp [generate_docstring]

/-- Claim C2 (amended): for every unit and configuration, status = existing
iff a credential is configured and the unit carries a truthy (non-empty)
existing docstring; status = generated iff a credential is configured, the
unit has no truthy docstring and the remote call succeeds; status = error
iff a credential is configured, the unit has no truthy docstring and the
remote call fails; the status key is absent iff no credential is
configured; and no network call is issued iff no credential is configured
or the unit's docstring is truthy (generation skipped). -/
theorem c2_status_characterization (hasModel : Bool)
    (svc : String → Except String String) (function_info : FunctionInfo)
    (style : String) :
    ((generate_docstring hasModel svc function_info style).1.status = some "existing" ↔
      hasModel = true ∧ pyTruthy function_info.existing_docstring = true) ∧
    ((generate_docstring hasModel svc function_info style).1.status = some "generated" ↔
      hasModel = true ∧ pyTruthy function_info.existing_docstring = false ∧
        ∃ t, svc (create_prompt function_info style) = .ok t) ∧
    ((generate_docstring hasModel svc function_info style).1.status = some "error" ↔
      hasModel = true ∧ pyTruthy function_info.existing_docstring = false ∧
        ∃ e, svc (create_prompt function_info style) = .error e) ∧
    ((generate_docstring hasModel svc function_info style).1.status = none ↔
      hasModel = false) ∧
    ((generate_docstring hasModel svc function_info style).2 = [] ↔
      hasModel = false ∨ pyTruthy function_info.existing_docstring = true) := by
  cases hasModel with
  | false => simp [generate_docstring]
  | true =>
    cases hdoc : pyTruthy function_info.existing_docstring with
    | true => simp [generate_docstring, hdoc]
    | false =>
      cases hsvc : svc (create_prompt function_info style) with
      | ok t => simp [generate_docstring, hdoc, hsvc]
      | error e => simp [generate_docstring, hdoc, hsvc]

/-- Claim C7: for every input string, the Response Interpreter's parse is a
total function (every Python operation it performs is total, so the except
branch is dead and no exception propagates) and the documentation-text
field of its result is never absent. -/
theorem c7_parse_response_never_absent (response_text : String) :
    (parse_response response_text).docstring.isSome = true := by
  simp only [parse_response]
  split
  · split <;> rfl
  · rfl

/-- Claim C9: the Prompt Builder is pure and deterministic — it reads
nothing but its two arguments (the embedding needs no further state), so
two invocations on identical unit records and styles yield byte-identical
request text. -/
theorem c9_create_prompt_deterministic (u₁ u₂ : FunctionInfo) (s₁ s₂ : String)
    (hu : u₁ = u₂) (hs : s₁ = s₂) :
    create_prompt u₁ s₁ = create_prompt u₂ s₂ := by
  rw [hu, hs]

/-- Witness for claim C9 at a concrete unit and style. -/
theorem c9_witness :
    create_prompt sampleUnit "Google" = create_prompt sampleUnit "Google" :=
  c9_create_prompt_deterministic sampleUnit sampleUnit "Google" "Google" rfl rfl

/-- A pydocstyle finding with the D105 (missing docstring in magic method)
code, a D1xx missing-documentation rule. -/
def d105Issue : Issue :=
  { code := "D105", message := "Missing docstring in magic method",
    line := 3, defining := "" }

/-- Pointwise agreement of the membership test `validate_code` filters with
and the severity `get_file_status` computes. -/
theorem decide_mem_eq_decide_severity (c : String) :
    (decide (c ∈ errorCodes)) = (decide (fileStatusSeverity c = "error")) := by
  by_cases h : c ∈ errorCodes <;> simp [fileStatusSeverity, h]

/-- Complement of the same agreement, for the warnings filter. -/
theorem decide_not_mem_eq_decide_severity (c : String) :
    (decide (c ∉ errorCodes)) = (decide (fileStatusSeverity c = "warning")) := by
  by_cases h : c ∈ errorCodes <;> simp [fileStatusSeverity, h]

/-- Claim C3: as stated — severity is error iff the rule code is a D1xx
missing-documentation code and warning for every other code — the claim is
false on both severity tables: validate_code puts a D105 finding (a D1xx
missing-documentation code) among the warnings, and get_severity_color
assigns error to D400, which is not a D1xx code. -/
theorem c3_counterexample :
    (validate_code (fun _ => [d105Issue]) "" none).summary.errors = 0 ∧
    (validate_code (fun _ => [d105Issue]) "" none).summary.warnings = 1 ∧
    pyStartsWith "D105" "D1" = true ∧
    get_severity_color "D400" = "error" ∧
    pyStartsWith "D400" "D1" = false := by
  refine ⟨?_, ?_, ?_, ?_, ?_⟩ <;> decide

/-- Claim C3 (amended): severity is a pure function of the rule code, but
the fixed tables are these — validate_code and get_file_status assign
error exactly to the four codes D100, D101, D102, D103 (every other code,
including the remaining D1xx missing-documentation codes such as D105,
gets warning), while get_severity_color assigns warning exactly to D2xx
and D3xx codes and error to D1xx, D4xx and everything else. -/
theorem c3_severity_tables (code : String) (check : String → List Issue)
    (source_code : String) (gen : Option (List (String × GenResult))) :
    (fileStatusSeverity code = "error" ↔ code ∈ errorCodes) ∧
    (fileStatusSeverity code = "warning" ↔ code ∉ errorCodes) ∧
    ((validate_code check source_code gen).errors =
      (check (mergedSource source_code gen)).filter
        (fun issue => fileStatusSeverity issue.code = "error")) ∧
    ((validate_code check source_code gen).warnings =
      (check (mergedSource source_code gen)).filter
        (fun issue => fileStatusSeverity issue.code = "warning")) ∧
    (get_severity_color code = "warning" ↔
      pyStartsWith code "D1" = false ∧
        (pyStartsWith code "D2" = true ∨ pyStartsWith code "D3" = true)) ∧
    (get_severity_color code = "error" ↔
      pyStartsWith code "D1" = true ∨
        (pyStartsWith code "D2" = false ∧ pyStartsWith code "D3" = false)) := by
  refine ⟨?_, ?_, ?_, ?_, ?_, ?_⟩
  · by_cases h : code ∈ errorCodes <;> simp [fileStatusSeverity, h]
  · by_cases h : code ∈ errorCodes <;> simp [fileStatusSeverity, h]
  · simp only [validate_code, format_results]
    exact List.filter_congr (fun i _ => decide_mem_eq_decide_severity i.code)
  · simp only [validate_code, format_results]
    exact List.filter_congr (fun i _ => decide_not_mem_eq_decide_severity i.code)
  · unfold get_severity_color
    split <;> rename_i h1
    · simp [h1]
    · split <;> rename_i h2
      · simp [h1, h2, Bool.not_eq_true _ ▸ h1]
      · split <;> rename_i h3
        · simp [h1, h3]
        · split <;> simp_all
  · unfold get_severity_color
    split <;> rename_i h1
    · simp [h1]
    · split <;> rename_i h2
      · simp_all
      · split <;> rename_i h3
        · simp_all
        · split <;> simp_all

/-- Claim C4: on the success path, summary.errors + summary.warnings equals
total_issues and compliant is non-negative; on the internal-failure path,
validate_code returns a single synthetic error-severity finding with the
fixed code ERROR and compliant = 0, and the same summary invariant
holds. -/
theorem c4_summary_invariant (check : String → List Issue)
    (source_code : String) (gen : Option (List (String × GenResult)))
    (e : String) :
    ((validate_code check source_code gen).summary.errors +
      (validate_code check source_code gen).summary.warnings =
      (validate_code check source_code gen).total_issues) ∧
    (0 ≤ (validate_code check source_code gen).compliant) ∧
    ((validate_error_result e).summary.errors +
      (validate_error_result e).summary.warnings =
      (validate_error_result e).total_issues) ∧
    ((validate_error_result e).compliant = 0) ∧
    ((validate_error_result e).errors =
      [{ code := "ERROR", message := "Validation error: " ++ e,
         line := 0, defining := "" }]) ∧
    ((validate_error_result e).warnings = []) := by
  refine ⟨rfl, ?_, rfl, rfl, rfl, rfl⟩
  simp only [validate_code, format_results]
  exact le_max_left 0 _

/-- Modelled from the spec, for comparison only: the number of documentable
units in a source text, reading "Documentable unit: a function or class
definition" over the merged source — one unit per line whose stripped text
opens a function or class definition. -/
def specUnitCount (s : String) : Nat :=
  ((pySplitLines s).filter (fun line =>
    pyStartsWith (pyStrip line) "def " || pyStartsWith (pyStrip line) "class ")).length

/-- Claim C5: as stated — compliant equals
max(0, total_definable_units − error_count) with total_definable_units the
number of documentable units in the merged source — the claim is false:
the code counts occurrences of the four-character substring "def ", so a
source whose only "def " lies inside a string literal and which defines no
unit at all is scored compliant = 1 where the claim demands 0. -/
theorem c5_counterexample :
    (validate_code (fun _ => []) "\"\"\"Mod.\"\"\"\nx = \"def \"" none).compliant = 1 ∧
    specUnitCount "\"\"\"Mod.\"\"\"\nx = \"def \"" = 0 ∧
    (validate_code (fun _ => []) "\"\"\"Mod.\"\"\"\nx = \"def \"" none).compliant ≠
      max 0 ((specUnitCount "\"\"\"Mod.\"\"\"\nx = \"def \"" : Int) - 0) := by
  refine ⟨?_, ?_, ?_⟩ <;> decide

/-- Claim C5 (amended): after every validation pass,
compliant = max(0, c − e) where c is the number of occurrences of the
substring "def " in the merged source (a textual count — string-literal
occurrences are included and class definitions are not counted) and e is
the number of error-severity findings. -/
theorem c5_compliant_formula (check : String → List Issue)
    (source_code : String) (gen : Option (List (String × GenResult))) :
    (validate_code check source_code gen).compliant =
      max 0 ((pyCount (mergedSource source_code gen) "def " : Int) -
        ((check (mergedSource source_code gen)).filter
          (fun issue => issue.code ∈ errorCodes)).length) := rfl

section DictLemmas

variable {α : Type}

/-- A key hits the occupancy test iff it is among the keys. -/
theorem any_key_iff (m : List (String × α)) (k : String) :
    (m.any fun p => p.1 = k) = true ↔ k ∈ m.map Prod.fst := by
  rw [List.any_eq_true]
  constructor
  · rintro ⟨p, hp, hk⟩
    exact List.mem_map.mpr ⟨p, hp, of_decide_eq_true hk⟩
  · intro hk
    obtain ⟨p, hp, hpk⟩ := List.mem_map.mp hk
    exact ⟨p, hp, decide_eq_true hpk⟩

/-- Keys after an upsert: unchanged when the key was present, extended by
the key otherwise. -/
theorem keys_dictInsert (m : List (String × α)) (k : String) (v : α) :
    (dictInsert m k v).map Prod.fst =
      if (m.any fun p => p.1 = k) = true then m.map Prod.fst
      else m.map Prod.fst ++ [k] := by
  unfold dictInsert
  by_cases h : (m.any fun p => p.1 = k) = true
  · rw [if_pos h, if_pos h, List.map_map]
    apply List.map_congr_left
    intro p _
    by_cases hp : p.1 = k <;> simp [hp]
  · rw [if_neg h, if_neg h]
    simp

/-- Upserting preserves key uniqueness. -/
theorem nodup_keys_dictInsert (m : List (String × α)) (k : String) (v : α)
    (h : (m.map Prod.fst).Nodup) : ((dictInsert m k v).map Prod.fst).Nodup := by
  rw [keys_dictInsert]
  by_cases hk : (m.any fun p => p.1 = k) = true
  · rwa [if_pos hk]
  · rw [if_neg hk]
    have hnot : k ∉ m.map Prod.fst := fun hmem => hk ((any_key_iff m k).mpr hmem)
    simp [List.nodup_append, h, hnot]

/-- Finding in an in-place-updated list: at the updated key the first
occurrence now holds the new value, elsewhere nothing changed. -/
theorem find?_update (k : String) (v : α) (n : String) :
    ∀ m : List (String × α),
      ((m.map fun p => if p.1 = k then (k, v) else p).find? fun p => p.1 = n) =
        if n = k then (m.find? fun p => p.1 = k).map (fun _ => (k, v))
        else m.find? fun p => p.1 = n := by
  intro m
  induction m with
  | nil => by_cases hnk : n = k <;> simp [hnk]
  | cons p m ih =>
    by_cases hpk : p.1 = k
    · by_cases hnk : n = k
      · subst hnk
        simp [List.find?_cons, hpk]
      · simp [List.find?_cons, hpk, hnk, Ne.symm hnk, ih]
    · by_cases hnk : n = k
      · subst hnk
        simp [List.find?_cons, hpk, ih]
      · by_cases hpn : p.1 = n
        · simp [List.find?_cons, hpk, hnk, hpn]
        · simp [List.find?_cons, hpk, hnk, hpn, ih]

/-- Lookup after an upsert: the upserted key maps to the new value, other
keys are untouched. -/
theorem dictFind_dictInsert (m : List (String × α)) (k : String) (v : α)
    (n : String) :
    dictFind (dictInsert m k v) n = if n = k then some v else dictFind m n := by
  unfold dictInsert dictFind
  by_cases hany : (m.any fun p => p.1 = k) = true
  · rw [if_pos hany, find?_update]
    by_cases hnk : n = k
    · rw [if_pos hnk, if_pos hnk]
      cases hfind : (m.find? fun p => p.1 = k) with
      | none =>
        exfalso
        obtain ⟨p, hp, hpk⟩ := List.any_eq_true.mp hany
        exact (List.find?_eq_none.mp hfind p hp) hpk
      | some q => simp [hfind]
    · simp [hnk]
  · rw [if_neg hany]
    by_cases hnk : n = k
    · subst hnk
      have hnone : (m.find? fun p => p.1 = n) = none := by
        rw [List.find?_eq_none]
        intro p hp hpn
        exact hany (List.any_eq_true.mpr ⟨p, hp, hpn⟩)
      rw [if_pos rfl, List.find?_append, hnone]
      simp [List.find?_cons]
    · rw [if_neg hnk, List.find?_append]
      have hsingle : ([(k, v)].find? fun p => p.1 = n) = none := by
        simp [List.find?_cons, Ne.symm hnk]
      rw [hsingle]
      cases hf : (m.find? fun p => p.1 = n) <;> simp [hf]

/-- Folding the upsert over a pair list, Python's dict-building loop. -/
def dictFold (ps : List (String × α)) (acc : List (String × α)) :
    List (String × α) :=
  ps.foldl (fun m q => dictInsert m q.1 q.2) acc

/-- Key uniqueness is preserved along the whole fold. -/
theorem nodup_keys_dictFold (ps : List (String × α)) :
    ∀ acc : List (String × α), (acc.map Prod.fst).Nodup →
      ((dictFold ps acc).map Prod.fst).Nodup := by
  induction ps with
  | nil => intro acc h; exact h
  | cons q ps ih =>
    intro acc h
    exact ih (dictInsert acc q.1 q.2) (nodup_keys_dictInsert acc q.1 q.2 h)

/-- Size of the folded dict: the number of distinct keys among the
accumulator's keys and the fold's keys. -/
theorem length_dictFold (ps : List (String × α)) :
    ∀ acc : List (String × α), (acc.map Prod.fst).Nodup →
      (dictFold ps acc).length =
        (acc.map Prod.fst ++ ps.map Prod.fst).toFinset.card := by
  induction ps with
  | nil =>
    intro acc h
    rw [dictFold, List.foldl_nil, List.map_nil, List.append_nil,
      List.toFinset_card_of_nodup h, List.length_map]
  | cons q ps ih =>
    intro acc h
    have step := ih (dictInsert acc q.1 q.2) (nodup_keys_dictInsert acc q.1 q.2 h)
    rw [dictFold, List.foldl_cons, ← dictFold, step, keys_dictInsert]
    by_cases hq : (acc.any fun p => p.1 = q.1) = true
    · rw [if_pos hq]
      have hmem : q.1 ∈ acc.map Prod.fst := (any_key_iff acc q.1).mp hq
      congr 1
      ext a
      simp only [List.mem_toFinset, List.mem_append, List.map_cons, List.mem_cons]
      constructor
      · rintro (h1 | h2)
        · exact Or.inl h1
        · exact Or.inr (Or.inr h2)
      · rintro (h1 | rfl | h2)
        · exact Or.inl h1
        · exact Or.inl hmem
        · exact Or.inr h2
    · rw [if_neg hq]
      congr 1
      ext a
      simp only [List.mem_toFinset, List.mem_append, List.map_cons,
        List.mem_cons, List.mem_singleton]
      tauto

/-- The last value written at a key in a pair list. -/
def lastValueAt (ps : List (String × α)) (n : String) : Option α :=
  ((ps.filter fun q => q.1 = n).getLast?).map Prod.snd

/-- Lookup in the folded dict: the last write to the key wins, falling back
to the accumulator when the key never occurs. -/
theorem dictFind_dictFold (ps : List (String × α)) :
    ∀ (acc : List (String × α)) (n : String),
      dictFind (dictFold ps acc) n =
        match lastValueAt ps n with
        | some v => some v
        | none => dictFind acc n := by
  induction ps with
  | nil => intro acc n; simp [dictFold, lastValueAt]
  | cons q ps ih =>
    intro acc n
    rw [dictFold, List.foldl_cons, ← dictFold, ih]
    by_cases hqn : q.1 = n
    · have hfilter : ((q :: ps).filter fun r => r.1 = n) =
          q :: (ps.filter fun r => r.1 = n) := by
        simp [List.filter_cons, hqn]
      unfold lastValueAt
      rw [hfilter]
      cases hps : (ps.filter fun r => r.1 = n) with
      | nil =>
        simp [dictFind_dictInsert, hqn.symm]
      | cons x xs =>
        rw [List.getLast?_cons_cons]
        cases hlast : (x :: xs).getLast? with
        | none =>
          exact absurd (List.getLast?_eq_none_iff.mp hlast) (List.cons_ne_nil x xs)
        | some w => simp
    · have hfilter : ((q :: ps).filter fun r => r.1 = n) =
          ps.filter fun r => r.1 = n := by
        simp [List.filter_cons, hqn]
      unfold lastValueAt
      rw [hfilter, dictFind_dictInsert]
      have : ¬ n = q.1 := fun h => hqn h.symm
      rw [if_neg this]

end DictLemmas

/-- The result dict of the batch loop is the upsert-fold of the per-unit
results over the accumulator. -/
theorem batchAux_fst (hasModel : Bool) (svc : String → Except String String)
    (style : String) (total : Nat) :
    ∀ (es : List (Nat × FunctionInfo)) (acc : List (String × GenResult)),
      (batchAux hasModel svc style total es acc).1 =
        dictFold (es.map fun p =>
          (p.2.name, (generate_docstring hasModel svc p.2 style).1)) acc := by
  intro es
  induction es with
  | nil => intro acc; rfl
  | cons p es ih =>
    intro acc
    simp only [batchAux, List.map_cons]
    rw [ih]
    rfl

/-- The progress trace of the batch loop: one callback per unit, in input
order, carrying the one-based index and the fixed total. -/
theorem batchAux_snd (hasModel : Bool) (svc : String → Except String String)
    (style : String) (total : Nat) :
    ∀ (es : List (Nat × FunctionInfo)) (acc : List (String × GenResult)),
      (batchAux hasModel svc style total es acc).2 =
        es.map fun p => (p.1 + 1, total) := by
  intro es
  induction es with
  | nil => intro acc; rfl
  | cons p es ih =>
    intro acc
    simp only [batchAux, List.map_cons]
    rw [ih]

/-- The batch's result dict, rephrased as a fold over the plain unit
list. -/
theorem generate_batch_fst (hasModel : Bool)
    (svc : String → Except String String) (functions : List FunctionInfo)
    (style : String) :
    (generate_batch hasModel svc functions style).1 =
      dictFold (functions.map fun f =>
        (f.name, (generate_docstring hasModel svc f style).1)) [] := by
  rw [generate_batch, batchAux_fst]
  congr 1
  have h1 : (functions.enum.map fun p =>
      ((p.2 : FunctionInfo).name, (generate_docstring hasModel svc p.2 style).1)) =
      (functions.enum.map Prod.snd).map fun f =>
        (f.name, (generate_docstring hasModel svc f style).1) := by
    rw [List.map_map]
    rfl
  rw [h1, List.enum_map_snd]

/-- Claim C8: for every input sequence of units, the batch mapping keyed by
unit name has size at most the input length, with equality iff no two
units share a name; at every name the stored result is the one generated
for the last input unit bearing that name (later results overwrite
earlier ones); and processing is strictly sequential in input order, as
the progress trace (1, n), (2, n), ..., (n, n) records. -/
theorem c8_generate_batch_mapping (hasModel : Bool)
    (svc : String → Except String String) (functions : List FunctionInfo)
    (style : String) :
    ((generate_batch hasModel svc functions style).1.length ≤ functions.length) ∧
    ((generate_batch hasModel svc functions style).1.length = functions.length ↔
      (functions.map FunctionInfo.name).Nodup) ∧
    (∀ n : String,
      dictFind (generate_batch hasModel svc functions style).1 n =
        ((functions.filter fun f => f.name = n).getLast?).map
          (fun f => (generate_docstring hasModel svc f style).1)) ∧
    ((generate_batch hasModel svc functions style).2 =
      (List.range functions.length).map fun i => (i + 1, functions.length)) := by
  have hkeys : ((functions.map fun f =>
      (f.name, (generate_docstring hasModel svc f style).1)).map Prod.fst) =
      functions.map FunctionInfo.name := by
    rw [List.map_map]; rfl
  have hlen : (generate_batch hasModel svc functions style).1.length =
      (functions.map FunctionInfo.name).toFinset.card := by
    rw [generate_batch_fst, length_dictFold _ [] (by simp), List.map_nil,
      List.nil_append, hkeys]
  refine ⟨?_, ?_, ?_, ?_⟩
  · rw [hlen]
    calc (functions.map FunctionInfo.name).toFinset.card
        ≤ (functions.map FunctionInfo.name).length := List.toFinset_card_le _
      _ = functions.length := List.length_map _ _
  · rw [hlen, List.card_toFinset]
    constructor
    · intro h
      have hle : (functions.map FunctionInfo.name).dedup.length =
          (functions.map FunctionInfo.name).length := by
        rw [h, List.length_map]
      have := (List.dedup_sublist (functions.map FunctionInfo.name)).eq_of_length hle
      rw [← this]
      exact List.nodup_dedup _
    · intro h
      rw [h.dedup, List.length_map]
  · intro n
    rw [generate_batch_fst, dictFind_dictFold]
    have hfilter : ((functions.map fun f =>
        (f.name, (generate_docstring hasModel svc f style).1)).filter
          fun q => q.1 = n) =
        (functions.filter fun f => f.name = n).map fun f =>
          (f.name, (generate_docstring hasModel svc f style).1) :=
      List.filter_map _ _
    unfold lastValueAt
    rw [hfilter, List.getLast?_map]
    cases hlast : (functions.filter fun f => f.name = n).getLast? with
    | none => simp [dictFind]
    | some f => simp

  · rw [generate_batch, batchAux_snd]
    have h1 : (functions.enum.map fun p => (p.1 + 1, functions.length)) =
        (functions.enum.map Prod.fst).map fun i => (i + 1, functions.length) := by
      rw [List.map_map]
      rfl
    rw [h1, List.enum_map_fst]

mutual

/-- All nodes of a tree: the node followed by all nodes of its subtrees. -/
def allNodes : PyNode → List PyNode
  | .funcDef a cs => .funcDef a cs :: allNodesL cs
  | .other cs => .other cs :: allNodesL cs

/-- All nodes of a forest, tree by tree. -/
def allNodesL : List PyNode → List PyNode
  | [] => []
  | n :: ns => allNodes n ++ allNodesL ns

end

theorem allNodes_eq (n : PyNode) : allNodes n = n :: allNodesL n.children := by
  cases n <;> rfl

theorem allNodesL_append (a b : List PyNode) :
    allNodesL (a ++ b) = allNodesL a ++ allNodesL b := by
  induction a with
  | nil => simp [allNodesL]
  | cons n ns ih => simp [allNodesL, ih]

/-- Depth-first pre-order lists every node of the forest, in document
order. -/
theorem walkDoc_eq_allNodesL (q : List PyNode) : walkDoc q = allNodesL q := by
  induction q using walkDoc.induct with
  | case1 => rw [walkDoc]; rfl
  | case2 n rest ih =>
    rw [walkDoc, ih, allNodesL_append, allNodesL, allNodes_eq]
    simp [allNodesL]

/-- Breadth-first traversal lists every node of the forest exactly once: it
is a permutation of the depth-first enumeration. -/
theorem walkBFS_perm_allNodesL (q : List PyNode) :
    (walkBFS q).Perm (allNodesL q) := by
  induction q using walkBFS.induct with
  | case1 => rw [walkBFS]; rfl
  | case2 n rest ih =>
    rw [walkBFS]
    have h1 : (n :: walkBFS (rest ++ n.children)).Perm
        (n :: allNodesL (rest ++ n.children)) := ih.cons n
    have h2 : (n :: allNodesL (rest ++ n.children)).Perm
        (n :: (allNodesL n.children ++ allNodesL rest)) := by
      rw [allNodesL_append]
      exact List.perm_append_comm.cons n
    have h3 : allNodesL (n :: rest) =
        n :: (allNodesL n.children ++ allNodesL rest) := by
      rw [allNodesL, allNodes_eq]
      simp
    rw [h3]
    exact h1.trans h2

/-- On a forest of leaves both traversals are the identity. -/
theorem walkBFS_leaves (q : List PyNode) (h : ∀ n ∈ q, n.children = []) :
    walkBFS q = q := by
  induction q using walkBFS.induct with
  | case1 => rw [walkBFS]
  | case2 n rest ih =>
    have hn : n.children = [] := h n (List.mem_cons_self n rest)
    rw [hn, List.append_nil] at ih
    rw [walkBFS, hn, List.append_nil,
      ih fun m hm => h m (List.mem_cons_of_mem n hm)]

/-- Depth-first counterpart of the leaf-forest identity. -/
theorem walkDoc_leaves (q : List PyNode) (h : ∀ n ∈ q, n.children = []) :
    walkDoc q = q := by
  induction q using walkDoc.induct with
  | case1 => rw [walkDoc]
  | case2 n rest ih =>
    have hn : n.children = [] := h n (List.mem_cons_self n rest)
    rw [hn, List.nil_append] at ih
    rw [walkDoc, hn, List.nil_append,
      ih fun m hm => h m (List.mem_cons_of_mem n hm)]

/-- A module whose first definition contains a nested definition, followed
by a second top-level definition: in Python,
def f contains def g, then def h follows. -/
def nestedExample : PyNode :=
  .other [.funcDef "f" [.funcDef "g" []], .funcDef "h" []]

/-- A module with two flat, non-nested function definitions. -/
def flatExample : PyNode :=
  .other [.funcDef "a" [], .funcDef "b" []]

/-- Claim C6: as stated — extraction records appear in document order — the
claim is false for nested definitions: ast.walk is breadth-first, so a
module defining f (with nested g) and then h is extracted as f, h, g,
while document order is f, g, h. -/
theorem c6_counterexample :
    extract_functions nestedExample = ["f", "h", "g"] ∧
    docOrderNames nestedExample = ["f", "g", "h"] ∧
    extract_functions nestedExample ≠ docOrderNames nestedExample := by
  refine ⟨?_, ?_, ?_⟩
  · simp [extract_functions, nestedExample, walkBFS, PyNode.children, PyNode.funcName]
  · simp [docOrderNames, nestedExample, walkDoc, PyNode.children, PyNode.funcName]
  · simp [extract_functions, docOrderNames, nestedExample, walkBFS, walkDoc,
      PyNode.children, PyNode.funcName]

/-- Claim C6 (amended): for every syntax tree, extraction produces exactly
one record per function definition, including nested ones — the extracted
name sequence is a permutation of the document-order name sequence — but
the records appear in the breadth-first order of ast.walk, which
coincides with document order when no definition is nested below a
top-level statement. -/
theorem c6_extract_functions_bfs (tree : PyNode) :
    ((extract_functions tree).Perm (docOrderNames tree)) ∧
    ((∀ c ∈ tree.children, c.children = []) →
      extract_functions tree = docOrderNames tree) := by
  constructor
  · unfold extract_functions docOrderNames
    rw [walkDoc_eq_allNodesL]
    exact (walkBFS_perm_allNodesL [tree]).filterMap _
  · intro h
    unfold extract_functions docOrderNames
    rw [walkBFS, walkDoc, List.nil_append, List.append_nil,
      walkBFS_leaves tree.children h, walkDoc_leaves tree.children h]

/-- Witness for claim C6's flat-order clause at a concrete two-definition
module. -/
theorem c6_witness :
    extract_functions flatExample = docOrderNames flatExample :=
  (c6_extract_functions_bfs flatExample).2 (by
    intro c hc
    simp only [flatExample, PyNode.children, List.mem_cons,
      List.not_mem_nil, or_false] at hc
    rcases hc with rfl | rfl <;> rfl)

/-- Every input line survives the insertion loop verbatim and in order. -/
theorem insertLines_sublist (docstrings : List (String × GenResult)) :
    ∀ ls : List String, ls.Sublist (insertLines docstrings ls) := by
  intro ls
  induction ls with
  | nil => simp [insertLines]
  | cons line rest ih =>
    unfold insertLines
    by_cases h : insertTrigger docstrings line
    · rw [if_pos h]
      exact List.Sublist.cons₂ line
        (ih.trans (List.sublist_append_right _ _))
    · rw [if_neg h]
      exact List.Sublist.cons₂ line ih

/-- The insertion loop, characterised line by line: each line is emitted
verbatim, followed by its docstring block exactly when it triggers. -/
theorem insertLines_eq_flatMap (docstrings : List (String × GenResult)) :
    ∀ ls : List String,
      insertLines docstrings ls = ls.flatMap fun line =>
        line :: (if insertTrigger docstrings line then
          docBlock line (docValueFor docstrings line) else []) := by
  intro ls
  induction ls with
  | nil => rfl
  | cons line rest ih =>
    unfold insertLines
    rw [List.flatMap_cons, ← ih]
    by_cases h : insertTrigger docstrings line
    · rw [if_pos h, if_pos h]
      simp
    · rw [if_neg h, if_neg h]
      simp

/-- When no line triggers, the insertion loop is the identity. -/
theorem insertLines_id (docstrings : List (String × GenResult))
    (ls : List String)
    (h : ∀ line ∈ ls, insertTrigger docstrings line = false) :
    insertLines docstrings ls = ls := by
  induction ls with
  | nil => rfl
  | cons line rest ih =>
    unfold insertLines
    rw [if_neg (by simp [h line (List.mem_cons_self line rest)]),
      ih fun l hl => h l (List.mem_cons_of_mem line hl)]

/-- Claim C10: docstring splicing is insertion-only — the merged source's
line sequence contains every line of the original source unchanged and in
the original relative order; the output is exactly the input lines, each
followed by an indented triple-quoted block precisely when the line's
stripped text starts with def, its extracted name is a key of the
mapping, and the looked-up docstring is non-empty; and when no line
triggers, the merged source equals the input string. -/
theorem c10_insert_docstrings_frame (docstrings : List (String × GenResult))
    (source_code : String) :
    ((pySplitLines source_code).Sublist
      (insertLines docstrings (pySplitLines source_code))) ∧
    (insertLines docstrings (pySplitLines source_code) =
      (pySplitLines source_code).flatMap fun line =>
        line :: (if insertTrigger docstrings line then
          docBlock line (docValueFor docstrings line) else [])) ∧
    ((∀ line ∈ pySplitLines source_code,
        insertTrigger docstrings line = false) →
      insert_docstrings source_code docstrings = source_code) := by
  refine ⟨insertLines_sublist docstrings _, insertLines_eq_flatMap docstrings _, ?_⟩
  intro h
  rw [insert_docstrings, insertLines_id docstrings _ h,
    pyJoinLines_pySplitLines]

/-- Witness for claim C10's no-trigger clause: an empty mapping inserts
nothing and returns the two-line source unchanged. -/
theorem c10_witness :
    insert_docstrings "x = 1\ny = 2" [] = "x = 1\ny = 2" :=
  (c10_insert_docstrings_frame [] "x = 1\ny = 2").2.2 (by decide)

end DocGen
